import Mathlib

/-!
Verification of the finance-tracker CSV parsing pipeline
(`src/csv_parser/mod.rs`).

The Rust code is shallowly embedded: strings are Lean `String`s
manipulated through their character lists, `Option`/`Result` map to
`Option`/`Except`, and a Rust panic (`expect` / `panic!`) is modelled as
the `Except.error` / `ParseOutcome.panicked` branch carrying (an
abbreviation of) the panic message.  External collaborators are embedded
at the granularity the parser observes them:

* the `csv` reader is a stream of items, each either a transport error
  or a record (an ordered list of string fields);
* `chrono`'s `NaiveDate::parse_from_str(s, "%Y%m%d")` is embedded by its
  parsing algorithm for the item sequence `[Year, Month, Day]`:
  before each numeric item leading whitespace is skipped, an unsigned
  numeric item consumes greedily between 1 and `width` ASCII digits, a
  signed item (the year, width 4) also accepts a leading sign followed
  by a greedy digit run, the whole input must be consumed, and the
  resulting components must form a valid proleptic Gregorian date;
* Rust's `f32::from_str` grammar is embedded with the numeric value kept
  as an exact rational (rounding to the nearest `f32` is not modelled;
  the claims only concern fallback behaviour and the parsed value's
  identity/sign);
* `char` classification (`is_numeric`, `is_whitespace`) is modelled on
  the ASCII range, where Rust's Unicode classes restrict to the decimal
  digits `0`-`9` and the whitespace codes 9-13 and 32.
-/

/-- ASCII decimal digit test (`0` to `9`), i.e. codepoints 48-57. -/
def isDigitChar (c : Char) : Bool :=
  48 ≤ c.toNat && c.toNat ≤ 57

/-- Models Rust `char::is_numeric` (Unicode `Nd`/`Nl`/`No`).  On the ASCII
range — the character set of the modelled CSV data — this is exactly the
decimal digits; numeric characters outside ASCII are not modelled. -/
def isNumericChar (c : Char) : Bool :=
  isDigitChar c

/-- Models the source's `CharExtensions::is_quote`: the character is a
single quote (codepoint 39) or a double quote (codepoint 34). -/
def isQuoteChar (c : Char) : Bool :=
  c.toNat == 39 || c.toNat == 34

/-- Models Rust `char::is_whitespace` on the ASCII range: tab, line feed,
vertical tab, form feed, carriage return (codes 9-13) and space (32). -/
def isWsChar (c : Char) : Bool :=
  c.toNat == 32 || (9 ≤ c.toNat && c.toNat ≤ 13)

/-- Value of a run of ASCII digit characters, most significant first
(the accumulator loop of chrono's `scan::number`). -/
def decodeDigits (ds : List Char) : Nat :=
  ds.foldl (fun a c => a * 10 + (c.toNat - 48)) 0

/-- chrono `scan::number(s, 1, max)`: limit the window to `max`
characters (`none` = unlimited, for the signed branch's `usize::MAX`),
consume the leading digit run of the window, fail when it is empty.
Returns the value and the unconsumed remainder of the full input. -/
def scanNumber (max : Option Nat) (s : List Char) : Option (Nat × List Char) :=
  let window := match max with
    | none => s
    | some m => s.take m
  let ds := window.takeWhile isDigitChar
  if ds.isEmpty then none else some (decodeDigits ds, s.drop ds.length)

/-- chrono numeric-item parsing (`format/parse.rs`): skip leading
whitespace; a signed item accepts `-`/`+` followed by an unlimited
greedy digit run, otherwise (and for unsigned items) between 1 and
`width` digits are consumed greedily. -/
def parseNumeric (signed : Bool) (width : Nat) (s : List Char) :
    Option (Int × List Char) :=
  let t := s.dropWhile isWsChar
  if signed && t.head? == some '-' then
    (scanNumber none t.tail).map (fun p => (-(p.1 : Int), p.2))
  else if signed && t.head? == some '+' then
    (scanNumber none t.tail).map (fun p => ((p.1 : Int), p.2))
  else
    (scanNumber (some width) t).map (fun p => ((p.1 : Int), p.2))

/-- Proleptic Gregorian leap-year rule, as used by chrono. -/
def isLeapYear (y : Int) : Bool :=
  y % 4 == 0 && (y % 100 != 0 || y % 400 == 0)

/-- Days in a month of the proleptic Gregorian calendar. -/
def daysInMonth (y : Int) (m : Int) : Int :=
  if m == 2 then (if isLeapYear y then 29 else 28)
  else if m == 4 || m == 6 || m == 9 || m == 11 then 30
  else 31

/-- A `chrono::NaiveDate`: a calendar date with no time component. -/
structure NDate where
  year : Int
  month : Nat
  day : Nat
deriving DecidableEq, Repr

/-- `NaiveDate::from_ymd_opt`: succeeds exactly on valid proleptic
Gregorian dates within chrono's representable year range
(`i32::MIN >> 13` to `i32::MAX >> 13`). -/
def fromYmdOpt (y m d : Int) : Option NDate :=
  if -262144 ≤ y && y ≤ 262143 && 1 ≤ m && m ≤ 12 && 1 ≤ d &&
      d ≤ daysInMonth y m then
    some ⟨y, m.toNat, d.toNat⟩
  else
    none

/-- `NaiveDate::parse_from_str(s, "%Y%m%d")`: parse the three numeric
items `Year` (signed, width 4), `Month` (width 2), `Day` (width 2),
require the input to be fully consumed, then resolve the components to a
valid date. -/
def chronoParseYmd (s : String) : Option NDate :=
  match parseNumeric true 4 s.data with
  | none => none
  | some (y, r1) =>
    match parseNumeric false 2 r1 with
    | none => none
    | some (m, r2) =>
      match parseNumeric false 2 r2 with
      | none => none
      | some (d, r3) =>
        if r3.isEmpty then fromYmdOpt y m d else none

/-- Abbreviation of the panic message of `Data::parse_date`'s `expect`
(the full Rust message also restates the expected format). -/
def dateExpectMsg (s : String) : String :=
  "Attempted to parse date with NaiveDate: " ++ s

/-- `Data::parse_date`: a present field must parse as `%Y%m%d` (panic on
failure, modelled as `Except.error`); an absent field falls back to the
sentinel date 2000-01-01. -/
def parse_date (o : Option String) : Except String NDate :=
  match o with
  | some s =>
    match chronoParseYmd s with
    | some d => Except.ok d
    | none => Except.error (dateExpectMsg s)
  | none => Except.ok ⟨2000, 1, 1⟩

/-- The value of an `f32` produced by `f32::from_str`, with finite values
kept exactly as the scaled decimal denoted by the input text:
`finite m e` denotes the rational `m * 10 ^ e` (rounding to the nearest
`f32` is not modelled; the claims concern fallback behaviour and the
parsed value's identity and sign, which the exact value carries).  -/
inductive F32Val where
  | finite (mant : Int) (exp : Int)
  | infinite (neg : Bool)
  | nan (neg : Bool)
deriving DecidableEq, Repr

/-- Strip one leading `-` (codepoint 45) or `+` (43); the flag records
whether the sign was a minus. -/
def stripSign (cs : List Char) : Bool × List Char :=
  match cs.head? with
  | some c =>
    if c.toNat == 45 then (true, cs.tail)
    else if c.toNat == 43 then (false, cs.tail)
    else (false, cs)
  | none => (false, cs)

/-- Optional exponent part of the `f32::from_str` grammar: empty, or
`e`/`E` (codepoints 101/69), an optional sign and a nonempty digit run
consuming the rest of the input. -/
def parseExpPart (cs : List Char) : Option Int :=
  match cs.head? with
  | none => some 0
  | some c =>
    if c.toNat == 101 || c.toNat == 69 then
      let sr := stripSign cs.tail
      let ds := sr.2.takeWhile isDigitChar
      if ds.isEmpty || !(sr.2.drop ds.length).isEmpty then none
      else some (if sr.1 then -(decodeDigits ds : Int) else (decodeDigits ds : Int))
    else none

/-- Unsigned number part of the `f32::from_str` grammar: an integer digit
run, an optional `.` (codepoint 46) with a fractional digit run — at
least one digit in total — and an optional exponent.  The result
`(m, e)` is the exact scaled decimal `m * 10 ^ e`, with the digits of
the integer and fractional runs concatenated into the mantissa. -/
def parseNumberPart (cs : List Char) : Option (Int × Int) :=
  let ip := cs.takeWhile isDigitChar
  let r1 := cs.drop ip.length
  if r1.head? == some '.' then
    let fp := r1.tail.takeWhile isDigitChar
    let r2 := r1.tail.drop fp.length
    if ip.isEmpty && fp.isEmpty then none
    else
      (parseExpPart r2).map
        (fun e => ((decodeDigits (ip ++ fp) : Int), e - (fp.length : Int)))
  else
    if ip.isEmpty then none
    else (parseExpPart r1).map (fun e => ((decodeDigits ip : Int), e))

/-- Models `str::parse::<f32>` (`f32::from_str`): an optional sign, then
case-insensitively `inf`, `infinity` or `nan`, or a decimal number. -/
def rustParseF32 (s : String) : Option F32Val :=
  let sr := stripSign s.data
  let low := sr.2.map Char.toLower
  if low == "inf".data || low == "infinity".data then some (F32Val.infinite sr.1)
  else if low == "nan".data then some (F32Val.nan sr.1)
  else
    (parseNumberPart sr.2).map
      (fun p => F32Val.finite (if sr.1 then -p.1 else p.1) p.2)

/-- `str::trim` on a character list: drop leading whitespace, then drop
trailing whitespace. -/
def trimChars (l : List Char) : List Char :=
  (((l.dropWhile isWsChar).reverse.dropWhile isWsChar)).reverse

/-- Models Rust `str::trim` (whitespace restricted to ASCII, matching
`isWsChar`). -/
def rustTrim (s : String) : String :=
  String.mk (trimChars s.data)

/-- The description computation of `parse_csv`:
`record.get(4).unwrap_or("N/A").to_string().trim().to_string()`. -/
def descriptionField (o : Option String) : String :=
  rustTrim (o.getD "N/A")

/-- The source's `TransactionType`: a closed enumeration. -/
inductive TransactionType where
  | CREDIT
  | DEBIT
deriving DecidableEq, Repr

/-- The source's `TransactionCategory`: a closed enumeration, currently
assigned `Other` unconditionally. -/
inductive TransactionCategory where
  | Food
  | Utilities
  | Bills
  | Entertainment
  | Transportation
  | Healthcare
  | Education
  | AccountTransfers
  | Other
deriving DecidableEq, Repr

/-- `TransactionType::from_option_str`: exact, case-sensitive match on
`Some("DEBIT")` / `Some("CREDIT")`; everything else (other strings and
`None`) is an error. -/
def TransactionType.from_option_str (o : Option String) :
    Except String TransactionType :=
  match o with
  | some s =>
    if s = "DEBIT" then Except.ok TransactionType.DEBIT
    else if s = "CREDIT" then Except.ok TransactionType.CREDIT
    else Except.error ("Invalid transaction type provided: " ++ s)
  | none => Except.error "Invalid transaction type provided: None"

/-- The record type produced by the parser (`Data`). -/
structure Data where
  transaction_type : TransactionType
  date : NDate
  amount : F32Val
  description : String
  category : TransactionCategory
deriving DecidableEq, Repr

/-- Panic message of the `expect` on `TransactionType::from_option_str`. -/
def typeExpectMsg : String :=
  "Expected TransactionType to be either DEBIT or CREDIT."

/-- Panic message of `Option::unwrap` on `None` (the `record.get(3).unwrap()`). -/
def unwrapNoneMsg : String :=
  "called unwrap on a None value"

/-- The `Data { .. }` construction of `parse_csv`, in source field order:
transaction type (panic if invalid), date (panic if present and
malformed), amount (`unwrap` the field, parse failure falls back to
`0.0`), description (absent falls back to `"N/A"`, then trimmed),
category always `Other`.  A Rust panic is the `Except.error` branch. -/
def coerceRow (r : List String) : Except String Data :=
  match TransactionType.from_option_str (r.get? 1) with
  | Except.error _ => Except.error typeExpectMsg
  | Except.ok tt =>
    match parse_date (r.get? 2) with
    | Except.error m => Except.error m
    | Except.ok dt =>
      match r.get? 3 with
      | none => Except.error unwrapNoneMsg
      | some a =>
        Except.ok
          { transaction_type := tt
            date := dt
            amount := match rustParseF32 a with
              | some v => v
              | none => F32Val.finite 0 0
            description := descriptionField (r.get? 4)
            category := TransactionCategory.Other }

/-- `record.len() >= 5`. -/
def validRecordLen (r : List String) : Bool :=
  decide (5 ≤ r.length)

/-- `record.get(0).unwrap_or("default").chars().all(|c| c.is_numeric() || c.is_quote())`. -/
def validFirstItem (r : List String) : Bool :=
  ((r.get? 0).getD "default").data.all (fun c => isNumericChar c || isQuoteChar c)

/-- The Row Filter's admission predicate: the conjunction of the three
structural checks of `parse_csv` (field count, first-field shape, not
all fields empty). -/
def rowAdmitted (r : List String) : Bool :=
  (validRecordLen r && validFirstItem r) && r.any (fun f => !(f == ""))

/-- Outcome of one row inside the `filter_map` closure. -/
inductive RowResult where
  | skip
  | record (d : Data)
  | panic (msg : String)
deriving DecidableEq, Repr

/-- The body of the `filter_map` closure of `parse_csv` for an `Ok`
record: reject on field count or first-field shape, reject all-empty
rows, otherwise coerce the fields (which may panic). -/
def processRow (r : List String) : RowResult :=
  if validRecordLen r && validFirstItem r then
    if r.any (fun f => !(f == "")) then
      match coerceRow r with
      | Except.ok d => RowResult.record d
      | Except.error m => RowResult.panic m
    else
      RowResult.skip
  else
    RowResult.skip

/-- One item yielded by the `csv` reader's record stream: a transport
error (malformed CSV structure / encoding) or a record. -/
inductive ReadItem where
  | err (msg : String)
  | record (fields : List String)
deriving DecidableEq, Repr

/-- Observable outcome of `parse_csv`: the returned `Err` (file
open/read failure), a panic (transport error or strict-field validation
failure), or the returned `Ok` vector. -/
inductive ParseOutcome where
  | ioError (msg : String)
  | panicked (msg : String)
  | ok (records : List Data)
deriving DecidableEq, Repr

/-- The record-stream loop of `parse_csv`: a transport error panics, a
record is filtered/coerced, coercion panics abort, surviving records are
collected in order. -/
def processStream : List ReadItem → Except String (List Data)
  | [] => Except.ok []
  | ReadItem.err e :: _ => Except.error ("Error parsing CSV record: " ++ e)
  | ReadItem.record f :: rest =>
    match processRow f with
    | RowResult.skip => processStream rest
    | RowResult.panic m => Except.error m
    | RowResult.record d => (processStream rest).map (fun l => d :: l)

/-- The input `parse_csv` observes: an unreadable file (the `?` on
`File::open`), or the stream of items the `csv` reader yields for the
file's contents. -/
inductive FileInput where
  | unreadable (msg : String)
  | content (items : List ReadItem)
deriving DecidableEq, Repr

/-- `parse_csv`: file-open failure is returned as an error; otherwise
the record stream is processed, a panic aborting the call, success
returning the collected records. -/
def parse_csv (input : FileInput) : ParseOutcome :=
  match input with
  | FileInput.unreadable m => ParseOutcome.ioError m
  | FileInput.content items =>
    match processStream items with
    | Except.error m => ParseOutcome.panicked m
    | Except.ok rs => ParseOutcome.ok rs

/-- The admitted-and-coerced records of a stream, in stream order. -/
def goodRecords (items : List ReadItem) : List Data :=
  items.filterMap (fun it =>
    match it with
    | ReadItem.err _ => none
    | ReadItem.record f =>
      match processRow f with
      | RowResult.record d => some d
      | _ => none)

/-- Drop one leading quote character, if present. -/
def stripLeadQuote (cs : List Char) : List Char :=
  match cs with
  | [] => []
  | c :: t => if isQuoteChar c then t else c :: t

/-- Modelled from the spec's words, for comparison with the code's
first-field check: a first field of the "quoted-or-bare-numeric shape" —
decimal digits, optionally wrapped in a leading and/or trailing single
or double quote. -/
def specQuotedOrBareNumeric (s : String) : Bool :=
  ((stripLeadQuote ((stripLeadQuote s.data).reverse)).reverse).all isDigitChar

/-- Fallback-free field coercion: the coercion of `parse_csv` specialised
to rows whose columns 2, 3 and 4 are present, with the absent-column
branches (sentinel date, amount `unwrap`, `"N/A"` description) removed.
Used to state that those branches are unreachable for admitted rows. -/
def coercePresent (t : Option String) (f2 f3 f4 : String) : Except String Data :=
  match TransactionType.from_option_str t with
  | Except.error _ => Except.error typeExpectMsg
  | Except.ok tt =>
    match chronoParseYmd f2 with
    | none => Except.error (dateExpectMsg f2)
    | some dt =>
      Except.ok
        { transaction_type := tt
          date := dt
          amount := match rustParseF32 f3 with
            | some v => v
            | none => F32Val.finite 0 0
          description := rustTrim f4
          category := TransactionCategory.Other }

/-- The `w`-digit zero-padded decimal numeral of `n`, as characters. -/
def padNum : Nat → Nat → List Char
  | 0, _ => []
  | w + 1, n => padNum w (n / 10) ++ [Char.ofNat (48 + n % 10)]

/-- The 8-digit `YYYYMMDD` rendering of a date's components. -/
def ymd8 (y m d : Nat) : String :=
  String.mk (padNum 4 y ++ (padNum 2 m ++ padNum 2 d))

lemma toNat_digit_char (k : Nat) (hk : k < 10) :
    (Char.ofNat (48 + k)).toNat = 48 + k := by
  interval_cases k <;> decide

lemma isDigitChar_digit_char (k : Nat) (hk : k < 10) :
    isDigitChar (Char.ofNat (48 + k)) = true := by
  interval_cases k <;> decide

lemma padNum_length (w n : Nat) : (padNum w n).length = w := by
  induction w generalizing n with
  | zero => rfl
  | succ w ih => simp [padNum, ih]

lemma padNum_digits (w n : Nat) : ∀ c ∈ padNum w n, isDigitChar c = true := by
  induction w generalizing n with
  | zero => intro c hc; simp [padNum] at hc
  | succ w ih =>
    intro c hc
    simp only [padNum, List.mem_append, List.mem_singleton] at hc
    rcases hc with hc | hc
    · exact ih _ c hc
    · subst hc
      exact isDigitChar_digit_char _ (Nat.mod_lt _ (by norm_num))

lemma decodeDigits_append_singleton (l : List Char) (c : Char) :
    decodeDigits (l ++ [c]) = decodeDigits l * 10 + (c.toNat - 48) := by
  simp [decodeDigits, List.foldl_append]

lemma decodeDigits_padNum (w n : Nat) (h : n < 10 ^ w) :
    decodeDigits (padNum w n) = n := by
  induction w generalizing n with
  | zero =>
    have : n = 0 := by simpa using h
    subst this
    rfl
  | succ w ih =>
    have h10 : n / 10 < 10 ^ w := by
      refine (Nat.div_lt_iff_lt_mul (by norm_num)).2 ?_
      calc n < 10 ^ (w + 1) := h
        _ = 10 ^ w * 10 := by ring
    have hc : (Char.ofNat (48 + n % 10)).toNat = 48 + n % 10 :=
      toNat_digit_char _ (Nat.mod_lt _ (by norm_num))
    rw [padNum, decodeDigits_append_singleton, ih _ h10, hc]
    omega

lemma isDigitChar_bounds {c : Char} (h : isDigitChar c = true) :
    48 ≤ c.toNat ∧ c.toNat ≤ 57 := by
  simpa [isDigitChar, Bool.and_eq_true, decide_eq_true_eq] using h

lemma digit_not_ws {c : Char} (h : isDigitChar c = true) :
    isWsChar c = false := by
  obtain ⟨h1, h2⟩ := isDigitChar_bounds h
  rw [Bool.eq_false_iff]
  intro hw
  simp only [isWsChar, Bool.or_eq_true, Bool.and_eq_true, beq_iff_eq,
    decide_eq_true_eq] at hw
  omega

lemma digit_beq_false {c m : Char} (h : isDigitChar c = true)
    (hm : m.toNat < 48 ∨ 57 < m.toNat) : (c == m) = false := by
  obtain ⟨h1, h2⟩ := isDigitChar_bounds h
  rw [Bool.eq_false_iff]
  intro he
  rw [beq_iff_eq] at he
  subst he
  omega

lemma takeWhile_eq_self_of_all {p : Char → Bool} {l : List Char}
    (h : ∀ c ∈ l, p c = true) : l.takeWhile p = l := by
  induction l with
  | nil => rfl
  | cons c t ih =>
    rw [List.takeWhile_cons, h c (by simp)]
    simp [ih (fun x hx => h x (by simp [hx]))]

lemma padNum_head (w n : Nat) (hw : 0 < w) :
    ∃ c t, padNum w n = c :: t ∧ isDigitChar c = true := by
  cases hp : padNum w n with
  | nil =>
    have := padNum_length w n
    rw [hp] at this
    simp at this
    omega
  | cons c t =>
    exact ⟨c, t, rfl, padNum_digits w n c (by rw [hp]; simp)⟩

lemma scanNumber_padNum (w n : Nat) (rest : List Char) (hw : 0 < w)
    (h : n < 10 ^ w) :
    scanNumber (some w) (padNum w n ++ rest) = some (n, rest) := by
  have hlen := padNum_length w n
  have htake : (padNum w n ++ rest).take w = padNum w n := by
    have ht := List.take_left (padNum w n) rest
    rwa [hlen] at ht
  have htw : (padNum w n).takeWhile isDigitChar = padNum w n :=
    takeWhile_eq_self_of_all (padNum_digits w n)
  have hne : (padNum w n).isEmpty = false := by
    obtain ⟨c, t, hp, -⟩ := padNum_head w n hw
    rw [hp]
    rfl
  have hdrop : (padNum w n ++ rest).drop (padNum w n).length = rest :=
    List.drop_left _ _
  simp only [scanNumber, htake, htw, hne, Bool.false_eq_true, if_false,
    decodeDigits_padNum w n h]
  rw [hdrop]

lemma parseNumeric_padNum (signed : Bool) (w n : Nat) (rest : List Char)
    (hw : 0 < w) (h : n < 10 ^ w) :
    parseNumeric signed w (padNum w n ++ rest) = some ((n : Int), rest) := by
  obtain ⟨c, t, hp, hc⟩ := padNum_head w n hw
  have hcons : padNum w n ++ rest = c :: (t ++ rest) := by rw [hp]; rfl
  have hdw : (padNum w n ++ rest).dropWhile isWsChar = padNum w n ++ rest := by
    rw [hcons, List.dropWhile_cons, digit_not_ws hc]
    simp
  have hhead : (padNum w n ++ rest).head? = some c := by rw [hcons]; rfl
  have hminus : (c == '-') = false := digit_beq_false hc (by left; decide)
  have hplus : (c == '+') = false := digit_beq_false hc (by left; decide)
  have hm : ((padNum w n ++ rest).head? == some '-') = false := by
    rw [hhead]
    show (c == '-') = false
    exact hminus
  have hpl : ((padNum w n ++ rest).head? == some '+') = false := by
    rw [hhead]
    show (c == '+') = false
    exact hplus
  simp only [parseNumeric, hdw, hm, hpl, Bool.and_false, Bool.false_eq_true,
    if_false, scanNumber_padNum w n rest hw h]
  rfl

lemma chronoParseYmd_ymd8 (y m d : Nat) (hy : y ≤ 9999) (hm1 : 1 ≤ m)
    (hm2 : m ≤ 12) (hd1 : 1 ≤ d)
    (hd2 : (d : Int) ≤ daysInMonth (y : Int) (m : Int)) :
    chronoParseYmd (ymd8 y m d) = some ⟨y, m, d⟩ := by
  have hdata : (ymd8 y m d).data = padNum 4 y ++ (padNum 2 m ++ padNum 2 d) := rfl
  have hd100 : d < 100 := by
    have : daysInMonth (y : Int) (m : Int) ≤ 31 := by
      unfold daysInMonth
      split <;> try split
      all_goals omega
    omega
  have h1 := parseNumeric_padNum true 4 y (padNum 2 m ++ padNum 2 d)
    (by norm_num) (by omega)
  have h2 := parseNumeric_padNum false 2 m (padNum 2 d) (by norm_num) (by omega)
  have h3' := parseNumeric_padNum false 2 d [] (by norm_num) (by omega)
  have h3 : parseNumeric false 2 (padNum 2 d) = some ((d : Int), []) := by
    rw [← List.append_nil (padNum 2 d)]
    exact h3'
  rw [chronoParseYmd, hdata]
  simp only [h1, h2, h3, List.isEmpty_nil, if_true]
  rw [fromYmdOpt, if_pos]
  · simp
  · simp only [Bool.and_eq_true, decide_eq_true_eq]
    refine ⟨⟨⟨⟨⟨?_, ?_⟩, ?_⟩, ?_⟩, ?_⟩, ?_⟩ <;> omega

lemma rowAdmitted_iff (r : List String) :
    rowAdmitted r = true ↔
      validRecordLen r = true ∧ validFirstItem r = true ∧
        r.any (fun f => !(f == "")) = true := by
  simp [rowAdmitted, Bool.and_eq_true, and_assoc]

lemma processRow_of_admitted {r : List String} (h : rowAdmitted r = true) :
    processRow r = match coerceRow r with
      | Except.ok d => RowResult.record d
      | Except.error m => RowResult.panic m := by
  obtain ⟨h1, h2, h3⟩ := (rowAdmitted_iff r).1 h
  rw [processRow, if_pos (by rw [h1, h2]; rfl), if_pos h3]

lemma length_of_admitted {r : List String} (h : rowAdmitted r = true) :
    5 ≤ r.length := by
  obtain ⟨h1, -, -⟩ := (rowAdmitted_iff r).1 h
  simpa [validRecordLen] using h1

lemma get?_isSome_of_admitted {r : List String} (h : rowAdmitted r = true)
    (i : Nat) (hi : i < 5) : ∃ s, r.get? i = some s := by
  have h5 := length_of_admitted h
  have hlt : i < r.length := by omega
  exact ⟨r.get ⟨i, hlt⟩, List.get?_eq_get hlt⟩

lemma from_option_str_not_dc {t : String} (h1 : t ≠ "DEBIT")
    (h2 : t ≠ "CREDIT") :
    TransactionType.from_option_str (some t) =
      Except.error ("Invalid transaction type provided: " ++ t) := by
  simp [TransactionType.from_option_str, h1, h2]

lemma coerceRow_of_type_error {r : List String} {m : String}
    (h : TransactionType.from_option_str (r.get? 1) = Except.error m) :
    coerceRow r = Except.error typeExpectMsg := by
  unfold coerceRow
  rw [h]

lemma coerceRow_of_date_error {r : List String} {tt : TransactionType}
    {m : String}
    (htt : TransactionType.from_option_str (r.get? 1) = Except.ok tt)
    (h : parse_date (r.get? 2) = Except.error m) :
    coerceRow r = Except.error m := by
  unfold coerceRow
  rw [htt, h]

lemma coerceRow_eq_ok {r : List String} {tt : TransactionType} {dt : NDate}
    {a : String}
    (htt : TransactionType.from_option_str (r.get? 1) = Except.ok tt)
    (hdt : parse_date (r.get? 2) = Except.ok dt)
    (ha : r.get? 3 = some a) :
    coerceRow r = Except.ok
      { transaction_type := tt
        date := dt
        amount := match rustParseF32 a with
          | some v => v
          | none => F32Val.finite 0 0
        description := descriptionField (r.get? 4)
        category := TransactionCategory.Other } := by
  unfold coerceRow
  rw [htt, hdt, ha]

lemma coerceRow_ok_inv {r : List String} {d : Data}
    (h : coerceRow r = Except.ok d) :
    ∃ tt dt a, TransactionType.from_option_str (r.get? 1) = Except.ok tt ∧
      parse_date (r.get? 2) = Except.ok dt ∧ r.get? 3 = some a ∧
      d = { transaction_type := tt
            date := dt
            amount := match rustParseF32 a with
              | some v => v
              | none => F32Val.finite 0 0
            description := descriptionField (r.get? 4)
            category := TransactionCategory.Other } := by
  unfold coerceRow at h
  split at h
  · simp at h
  · rename_i tt htt
    split at h
    · simp at h
    · rename_i dt hdt
      split at h
      · simp at h
      · rename_i a ha
        simp only [Except.ok.injEq] at h
        exact ⟨tt, dt, a, htt, hdt, ha, h.symm⟩

lemma processStream_cases (items : List ReadItem) :
    (∃ m, processStream items = Except.error m) ∨
      processStream items = Except.ok (goodRecords items) := by
  induction items with
  | nil => right; rfl
  | cons it rest ih =>
    cases it with
    | err e => left; exact ⟨_, rfl⟩
    | record f =>
      cases hp : processRow f with
      | skip =>
        rcases ih with ⟨m, hm⟩ | hok
        · left; exact ⟨m, by simp [processStream, hp, hm]⟩
        · right; simp [processStream, goodRecords, List.filterMap_cons, hp, hok]
      | panic m => left; exact ⟨m, by simp [processStream, hp]⟩
      | record d =>
        rcases ih with ⟨m, hm⟩ | hok
        · left; exact ⟨m, by simp [processStream, hp, hm, Except.map]⟩
        · right; simp [processStream, goodRecords, List.filterMap_cons, hp, hok, Except.map]

lemma head?_dropWhile_not (p : Char → Bool) (l : List Char) :
    ∀ c, (l.dropWhile p).head? = some c → p c = false := by
  induction l with
  | nil => intro c hc; simp [List.dropWhile] at hc
  | cons a t ih =>
    intro c hc
    rw [List.dropWhile_cons] at hc
    by_cases hpa : p a = true
    · rw [if_pos hpa] at hc
      exact ih c hc
    · rw [if_neg hpa] at hc
      simp only [List.head?_cons, Option.some.injEq] at hc
      subst hc
      exact Bool.eq_false_iff.2 hpa

lemma trimChars_decomp (l : List Char) :
    ∃ pre post, l = pre ++ (trimChars l ++ post) ∧
      (∀ c ∈ pre, isWsChar c = true) ∧ (∀ c ∈ post, isWsChar c = true) ∧
      (∀ c, (trimChars l).head? = some c → isWsChar c = false) ∧
      (∀ c, (trimChars l).getLast? = some c → isWsChar c = false) := by
  have h3 : (l.dropWhile isWsChar).reverse =
      (l.dropWhile isWsChar).reverse.takeWhile isWsChar ++
        (l.dropWhile isWsChar).reverse.dropWhile isWsChar := by
    rw [List.takeWhile_append_dropWhile]
  have h2 : l.dropWhile isWsChar =
      trimChars l ++ ((l.dropWhile isWsChar).reverse.takeWhile isWsChar).reverse := by
    conv_lhs => rw [← List.reverse_reverse (l.dropWhile isWsChar)]
    conv_lhs => rw [h3]
    rw [List.reverse_append]
    rfl
  refine ⟨l.takeWhile isWsChar,
    ((l.dropWhile isWsChar).reverse.takeWhile isWsChar).reverse,
    ?_, fun c hc => List.mem_takeWhile_imp hc, ?_, ?_, ?_⟩
  · conv_lhs => rw [← List.takeWhile_append_dropWhile (p := isWsChar) (l := l)]
    conv_lhs => rw [h2]
  · intro c hc
    rw [List.mem_reverse] at hc
    exact List.mem_takeWhile_imp hc
  · intro c hc
    have hl1 : (l.dropWhile isWsChar).head? = some c := by
      rw [h2]
      cases htr : trimChars l with
      | nil => rw [htr] at hc; simp at hc
      | cons a t =>
        rw [htr] at hc
        simp only [List.head?_cons, Option.some.injEq] at hc
        subst hc
        rfl
    exact head?_dropWhile_not isWsChar l c hl1
  · intro c hc
    have hrev : (trimChars l).getLast? =
        ((l.dropWhile isWsChar).reverse.dropWhile isWsChar).head? := by
      rw [trimChars, List.getLast?_reverse]
    rw [hrev] at hc
    exact head?_dropWhile_not isWsChar _ c hc

/-- C1: `parse_csv` yields exactly one of three mutually distinguishable
outcomes: the returned I/O error for an unreadable file (and only for
one), a fatal abort carrying a message for transport or strict-field
validation failures, or the full ordered sequence of admitted records
(possibly empty) — and a successful result is exactly the stream's
admitted records in stream order. -/
theorem C1_parse_outcome_taxonomy :
    (∀ m, parse_csv (FileInput.unreadable m) = ParseOutcome.ioError m) ∧
    (∀ items m, parse_csv (FileInput.content items) ≠ ParseOutcome.ioError m) ∧
    (∀ items, (∃ m, parse_csv (FileInput.content items) = ParseOutcome.panicked m) ∨
      parse_csv (FileInput.content items) = ParseOutcome.ok (goodRecords items)) ∧
    (∀ items rs, parse_csv (FileInput.content items) = ParseOutcome.ok rs →
      rs = goodRecords items) ∧
    parse_csv (FileInput.content []) = ParseOutcome.ok [] := by
  refine ⟨fun m => rfl, ?_, ?_, ?_, rfl⟩
  · intro items m h
    rcases processStream_cases items with ⟨m', hm'⟩ | hok
    · simp [parse_csv, hm'] at h
    · simp [parse_csv, hok] at h
  · intro items
    rcases processStream_cases items with ⟨m, hm⟩ | hok
    · exact Or.inl ⟨m, by simp [parse_csv, hm]⟩
    · exact Or.inr (by simp [parse_csv, hok])
  · intro items rs h
    rcases processStream_cases items with ⟨m, hm⟩ | hok
    · simp [parse_csv, hm] at h
    · simp [parse_csv, hok] at h
      exact h.symm

/-- Witness for C1: a concrete one-row stream parses successfully and the
theorem identifies the result with the stream's admitted records. -/
theorem C1_parse_outcome_taxonomy_witness :
    ([{ transaction_type := TransactionType.DEBIT
        date := ⟨2024, 6, 3⟩
        amount := F32Val.finite 50 (-1)
        description := "x"
        category := TransactionCategory.Other }] : List Data) =
      goodRecords [ReadItem.record ["1", "DEBIT", "20240603", "5.0", "x"]] :=
  C1_parse_outcome_taxonomy.2.2.2.1 _ _ (by decide)

/-- C2: the transaction-type field of an admitted row must be exactly
`DEBIT` or `CREDIT` (case-sensitive): any other value — including the
empty string, and `None`, which cannot occur for an admitted row since
column 1 is always present — makes the whole parse abort with the
type-expect panic; on an exact match the record carries the
corresponding enumeration value, never a fallback. -/
theorem C2_transaction_type_strict :
    (TransactionType.from_option_str (some "DEBIT") =
      Except.ok TransactionType.DEBIT) ∧
    (TransactionType.from_option_str (some "CREDIT") =
      Except.ok TransactionType.CREDIT) ∧
    (∀ o : Option String, (∀ s, o = some s → s ≠ "DEBIT" ∧ s ≠ "CREDIT") →
      ∃ m, TransactionType.from_option_str o = Except.error m) ∧
    (∀ r, rowAdmitted r = true → ∃ t, r.get? 1 = some t) ∧
    (∀ r t, rowAdmitted r = true → r.get? 1 = some t → t ≠ "DEBIT" →
      t ≠ "CREDIT" → processRow r = RowResult.panic typeExpectMsg) ∧
    (∀ r t rest, rowAdmitted r = true → r.get? 1 = some t → t ≠ "DEBIT" →
      t ≠ "CREDIT" →
      parse_csv (FileInput.content (ReadItem.record r :: rest)) =
        ParseOutcome.panicked typeExpectMsg) ∧
    (∀ r d, rowAdmitted r = true → processRow r = RowResult.record d →
      (r.get? 1 = some "DEBIT" → d.transaction_type = TransactionType.DEBIT) ∧
      (r.get? 1 = some "CREDIT" →
        d.transaction_type = TransactionType.CREDIT)) := by
  have hrow : ∀ r t, rowAdmitted r = true → r.get? 1 = some t → t ≠ "DEBIT" →
      t ≠ "CREDIT" → processRow r = RowResult.panic typeExpectMsg := by
    intro r t h ht h1 h2
    rw [processRow_of_admitted h,
      coerceRow_of_type_error (by rw [ht]; exact from_option_str_not_dc h1 h2)]
  refine ⟨rfl, rfl, ?_, ?_, hrow, ?_, ?_⟩
  · intro o ho
    cases o with
    | none => exact ⟨_, rfl⟩
    | some s =>
      obtain ⟨h1, h2⟩ := ho s rfl
      exact ⟨_, from_option_str_not_dc h1 h2⟩
  · intro r h
    exact get?_isSome_of_admitted h 1 (by norm_num)
  · intro r t rest h ht h1 h2
    simp [parse_csv, processStream, hrow r t h ht h1 h2]
  · intro r d h hrec
    rw [processRow_of_admitted h] at hrec
    cases hcr : coerceRow r with
    | error m => rw [hcr] at hrec; simp at hrec
    | ok d' =>
      rw [hcr] at hrec
      simp only [RowResult.record.injEq] at hrec
      subst hrec
      obtain ⟨tt, dt, a, htt, hdt, ha, hd⟩ := coerceRow_ok_inv hcr
      constructor
      · intro hg
        rw [hg] at htt
        have h0 : TransactionType.from_option_str (some "DEBIT") =
            Except.ok TransactionType.DEBIT := rfl
        rw [h0] at htt
        injection htt with htt'
        rw [hd, ← htt']
      · intro hg
        rw [hg] at htt
        have h0 : TransactionType.from_option_str (some "CREDIT") =
            Except.ok TransactionType.CREDIT := rfl
        rw [h0] at htt
        injection htt with htt'
        rw [hd, ← htt']

/-- Witness for C2: an admitted row with type field `XFER` panics with
the type-expect message. -/
theorem C2_transaction_type_strict_witness :
    processRow ["1", "XFER", "20240603", "1.0", "d"] =
      RowResult.panic typeExpectMsg :=
  C2_transaction_type_strict.2.2.2.2.1 _ "XFER" (by decide) (by decide)
    (by decide) (by decide)

/-- C3 counterexample: the claim says date parsing succeeds only on
8-digit strings, but the present, non-empty 7-character string `2024063`
parses successfully (chrono's numeric items accept fewer digits than
their width), so the parse does not abort on it. -/
theorem C3_counterexample :
    parse_date (some "2024063") = Except.ok ⟨2024, 6, 3⟩ ∧
    "2024063".length ≠ 8 ∧ "2024063" ≠ "" := by
  refine ⟨rfl, by decide, by decide⟩

/-- C3 amended: an absent date column falls back to the sentinel
2000-01-01; every valid 8-digit `YYYYMMDD` rendering parses to the
corresponding date; any present string rejected by chrono's (lenient)
`%Y%m%d` grammar aborts the parse with the date panic; but the grammar
is lenient, so some non-8-digit strings (e.g. `2024063`) also parse
successfully instead of aborting. -/
theorem C3_date_parsing_amended :
    (parse_date none = Except.ok ⟨2000, 1, 1⟩) ∧
    (∀ y m d : Nat, y ≤ 9999 → 1 ≤ m → m ≤ 12 → 1 ≤ d →
      (d : Int) ≤ daysInMonth (y : Int) (m : Int) →
      parse_date (some (ymd8 y m d)) = Except.ok ⟨y, m, d⟩) ∧
    (∀ s, chronoParseYmd s = none →
      parse_date (some s) = Except.error (dateExpectMsg s)) ∧
    (parse_date (some "2024063") = Except.ok ⟨2024, 6, 3⟩) := by
  refine ⟨rfl, ?_, ?_, rfl⟩
  · intro y m d hy hm1 hm2 hd1 hd2
    simp only [parse_date, chronoParseYmd_ymd8 y m d hy hm1 hm2 hd1 hd2]
  · intro s hs
    simp only [parse_date, hs]

/-- Witness for C3 (amended): the 8-digit rendering of 2024-06-03 parses
to that date. -/
theorem C3_date_parsing_amended_witness :
    parse_date (some (ymd8 2024 6 3)) = Except.ok ⟨2024, 6, 3⟩ :=
  C3_date_parsing_amended.2.1 2024 6 3 (by norm_num) (by norm_num)
    (by norm_num) (by norm_num) (by decide)

/-- C4 counterexample: the claim admits only first fields of the
quoted-or-bare-numeric shape, but the row whose first field is `12'34`
(interior quote, not wrapping) is admitted by the Row Filter. -/
theorem C4_counterexample :
    rowAdmitted ["12'34", "DEBIT", "20240603", "1.0", "d"] = true ∧
    specQuotedOrBareNumeric "12'34" = false := by
  exact ⟨by decide, by decide⟩

/-- C4 amended: the first-field test is purely character-wise — any
character that is neither numeric nor a quote anywhere in the first
field disqualifies the row, but quote characters are accepted at any
position (they need not wrap a numeric identifier), so e.g. a first
field with an interior quote is admitted. -/
theorem C4_first_field_charwise :
    (∀ r f0 c, r.get? 0 = some f0 → c ∈ f0.data → isNumericChar c = false →
      isQuoteChar c = false → rowAdmitted r = false) ∧
    rowAdmitted ["12'34", "DEBIT", "20240603", "1.0", "d"] = true := by
  refine ⟨?_, by decide⟩
  intro r f0 c h0 hc hn hq
  rw [Bool.eq_false_iff]
  intro h
  obtain ⟨-, h2, -⟩ := (rowAdmitted_iff r).1 h
  rw [validFirstItem, h0, Option.getD_some] at h2
  have := List.all_eq_true.mp h2 c hc
  rw [hn, hq] at this
  simp at this

/-- Witness for C4 (amended): a row whose first field contains a letter
is rejected. -/
theorem C4_first_field_charwise_witness :
    rowAdmitted ["a1", "DEBIT", "20240603", "1.0", "d"] = false :=
  C4_first_field_charwise.1 _ "a1" 'a' (by decide) (by decide) (by decide)
    (by decide)

/-- C5: for an admitted row, the amount field is lenient: if it fails the
`f32` grammar the record's amount is exactly the fallback `0.0` and no
error is raised (the row still yields a record whenever the strict type
and date fields are valid); if it parses, the record carries the parsed
value verbatim, sign included; and no cross-validation against the
transaction type occurs — a positive `DEBIT` amount and a negative
`CREDIT` amount are both accepted unchanged. -/
theorem C5_amount_lenient :
    (∀ r a d, rowAdmitted r = true → r.get? 3 = some a →
      processRow r = RowResult.record d →
      (rustParseF32 a = none → d.amount = F32Val.finite 0 0) ∧
      (∀ v, rustParseF32 a = some v → d.amount = v)) ∧
    (∀ r a tt dt, rowAdmitted r = true → r.get? 3 = some a →
      TransactionType.from_option_str (r.get? 1) = Except.ok tt →
      parse_date (r.get? 2) = Except.ok dt →
      ∃ d, processRow r = RowResult.record d) ∧
    processRow ["1", "DEBIT", "20240603", "N/A", "d"] =
      RowResult.record
        { transaction_type := TransactionType.DEBIT
          date := ⟨2024, 6, 3⟩
          amount := F32Val.finite 0 0
          description := "d"
          category := TransactionCategory.Other } ∧
    processRow ["1", "DEBIT", "20240603", "5.0", "d"] =
      RowResult.record
        { transaction_type := TransactionType.DEBIT
          date := ⟨2024, 6, 3⟩
          amount := F32Val.finite 50 (-1)
          description := "d"
          category := TransactionCategory.Other } ∧
    processRow ["1", "CREDIT", "20240603", "-5.0", "d"] =
      RowResult.record
        { transaction_type := TransactionType.CREDIT
          date := ⟨2024, 6, 3⟩
          amount := F32Val.finite (-50) (-1)
          description := "d"
          category := TransactionCategory.Other } := by
  refine ⟨?_, ?_, by decide, by decide, by decide⟩
  · intro r a d h ha hrec
    rw [processRow_of_admitted h] at hrec
    cases hcr : coerceRow r with
    | error m => rw [hcr] at hrec; simp at hrec
    | ok d' =>
      rw [hcr] at hrec
      simp only [RowResult.record.injEq] at hrec
      subst hrec
      obtain ⟨tt, dt, a', htt, hdt, ha', hd⟩ := coerceRow_ok_inv hcr
      rw [ha] at ha'
      injection ha' with ha''
      subst ha''
      constructor
      · intro hnone
        rw [hd]
        simp [hnone]
      · intro v hv
        rw [hd]
        simp [hv]
  · intro r a tt dt h ha htt hdt
    rw [processRow_of_admitted h, coerceRow_eq_ok htt hdt ha]
    exact ⟨_, rfl⟩

/-- Witness for C5: a concrete admitted row with unparsable amount
`N/A` yields a record whose amount is the `0.0` fallback. -/
theorem C5_amount_lenient_witness :
    ({ transaction_type := TransactionType.DEBIT
       date := ⟨2024, 6, 3⟩
       amount := F32Val.finite 0 0
       description := "d"
       category := TransactionCategory.Other } : Data).amount =
      F32Val.finite 0 0 :=
  (C5_amount_lenient.1 ["1", "DEBIT", "20240603", "N/A", "d"] "N/A" _
    (by decide) (by decide) (by decide)).1 (by decide)

/-- C6 counterexample: two rows with identical first five fields — all
empty — behave differently because of a sixth, non-empty trailing
column: the 5-field row is silently skipped while the 6-field row is
admitted and panics on its empty transaction type, so trailing extra
columns are not ignored. -/
theorem C6_counterexample :
    processRow ["", "", "", "", ""] = RowResult.skip ∧
    processRow ["", "", "", "", "", "x"] = RowResult.panic typeExpectMsg := by
  exact ⟨by decide, by decide⟩

/-- C6 amended: rows with fewer than 5 fields are silently rejected
regardless of content; extra trailing columns never turn an admitted
5-field prefix into a rejection and do not influence the coerced record,
but they do participate in the all-empty-row check, so a non-empty
trailing column can make an otherwise-rejected all-empty row admitted. -/
theorem C6_row_length_policy :
    (∀ r, r.length < 5 → processRow r = RowResult.skip) ∧
    (∀ r, 5 ≤ r.length → coerceRow r = coerceRow (r.take 5) ∧
      (rowAdmitted (r.take 5) = true → rowAdmitted r = true)) := by
  constructor
  · intro r hl
    have hv : validRecordLen r = false := by
      simp only [validRecordLen, decide_eq_false_iff_not]
      omega
    rw [processRow, if_neg]
    rw [hv]
    simp
  · intro r hl
    have hg : ∀ i, i < 5 → (r.take 5).get? i = r.get? i := by
      intro i hi
      rw [List.get?_eq_getElem?, List.get?_eq_getElem?]
      exact List.getElem?_take_of_lt hi
    constructor
    · simp only [coerceRow, hg 1 (by norm_num), hg 2 (by norm_num),
        hg 3 (by norm_num), hg 4 (by norm_num)]
    · intro h
      obtain ⟨h1, h2, h3⟩ := (rowAdmitted_iff _).1 h
      refine (rowAdmitted_iff r).2 ⟨?_, ?_, ?_⟩
      · simp only [validRecordLen, decide_eq_true_eq]
        exact hl
      · rw [validFirstItem] at h2 ⊢
        rw [hg 0 (by norm_num)] at h2
        exact h2
      · obtain ⟨f, hf, hne⟩ := List.any_eq_true.mp h3
        exact List.any_eq_true.mpr ⟨f, List.mem_of_mem_take hf, hne⟩

/-- Witness for C6 (amended): a 1-field row is skipped, and the admitted
5-field prefix of a 6-field row transfers admission to the full row. -/
theorem C6_row_length_policy_witness :
    processRow ["x"] = RowResult.skip ∧
    rowAdmitted ["1", "DEBIT", "20240603", "1.0", "d", "extra"] = true := by
  constructor
  · exact C6_row_length_policy.1 ["x"] (by decide)
  · exact (C6_row_length_policy.2 ["1", "DEBIT", "20240603", "1.0", "d", "extra"]
      (by decide)).2 (by decide)

/-- C7: a row whose fields are all empty is silently rejected — it
produces no record and no error, and it contributes nothing to the
stream's output. -/
theorem C7_all_empty_rejected :
    (∀ r, (∀ f ∈ r, f = "") → processRow r = RowResult.skip) ∧
    (∀ r rest, (∀ f ∈ r, f = "") →
      processStream (ReadItem.record r :: rest) = processStream rest) := by
  have h1 : ∀ r : List String, (∀ f ∈ r, f = "") →
      processRow r = RowResult.skip := by
    intro r hall
    by_cases hlen : 5 ≤ r.length
    · have hany : r.any (fun f => !(f == "")) = false := by
        rw [Bool.eq_false_iff]
        intro h
        obtain ⟨f, hf, hne⟩ := List.any_eq_true.mp h
        rw [hall f hf] at hne
        simp at hne
      rw [processRow]
      by_cases hfi : (validRecordLen r && validFirstItem r) = true
      · rw [if_pos hfi, if_neg]
        rw [hany]
        simp
      · rw [if_neg hfi]
    · have hv : validRecordLen r = false := by
        simp only [validRecordLen, decide_eq_false_iff_not]
        omega
      rw [processRow, if_neg]
      rw [hv]
      simp
  refine ⟨h1, ?_⟩
  intro r rest hall
  simp [processStream, h1 r hall]

/-- Witness for C7: the 5-field all-empty row is skipped. -/
theorem C7_all_empty_rejected_witness :
    processRow ["", "", "", "", ""] = RowResult.skip :=
  C7_all_empty_rejected.1 ["", "", "", "", ""] (by decide)

/-- C8: for an admitted row with a present description field, the
record's description is the raw text with exactly the leading and
trailing whitespace stripped — the raw field decomposes as whitespace,
the stored description, whitespace, and the stored description neither
starts nor ends with whitespace (so interior whitespace is preserved
verbatim); an absent description column yields the literal `N/A`. -/
theorem C8_description_trimmed :
    (∀ r f4 d, rowAdmitted r = true → r.get? 4 = some f4 →
      processRow r = RowResult.record d →
      d.description = rustTrim f4 ∧
      (∃ pre post, f4.data = pre ++ (d.description.data ++ post) ∧
        (∀ c ∈ pre, isWsChar c = true) ∧ (∀ c ∈ post, isWsChar c = true)) ∧
      (∀ c, d.description.data.head? = some c → isWsChar c = false) ∧
      (∀ c, d.description.data.getLast? = some c → isWsChar c = false)) ∧
    descriptionField none = "N/A" := by
  refine ⟨?_, rfl⟩
  intro r f4 d h h4 hrec
  rw [processRow_of_admitted h] at hrec
  cases hcr : coerceRow r with
  | error m => rw [hcr] at hrec; simp at hrec
  | ok d' =>
    rw [hcr] at hrec
    simp only [RowResult.record.injEq] at hrec
    subst hrec
    obtain ⟨tt, dt, a, htt, hdt, ha, hd⟩ := coerceRow_ok_inv hcr
    have hdesc : d'.description = rustTrim f4 := by
      rw [hd]
      show descriptionField (r.get? 4) = rustTrim f4
      rw [h4]
      rfl
    obtain ⟨pre, post, heq, hpre, hpost, hhead, hlast⟩ := trimChars_decomp f4.data
    have hdata : d'.description.data = trimChars f4.data := by
      rw [hdesc]
      rfl
    refine ⟨hdesc, ⟨pre, post, ?_, hpre, hpost⟩, ?_, ?_⟩
    · rw [hdata]
      exact heq
    · intro c hc
      rw [hdata] at hc
      exact hhead c hc
    · intro c hc
      rw [hdata] at hc
      exact hlast c hc

/-- Witness for C8: a concrete admitted row whose description has outer
whitespace and interior double spaces keeps the interior verbatim. -/
theorem C8_description_trimmed_witness :
    ({ transaction_type := TransactionType.DEBIT
       date := ⟨2024, 6, 3⟩
       amount := F32Val.finite (-137447) (-2)
       description := "[DS]BANK   MTG/HYP"
       category := TransactionCategory.Other } : Data).description =
      rustTrim "  [DS]BANK   MTG/HYP  " :=
  (C8_description_trimmed.1 ["1", "DEBIT", "20240603", "-1374.47",
    "  [DS]BANK   MTG/HYP  "] "  [DS]BANK   MTG/HYP  " _ (by decide)
    (by decide) (by decide)).1

/-- C9: a row with at least five fields whose first field is the empty
string and with at least one non-empty field is admitted (the
character-wise first-field check holds vacuously for the empty string),
and the row proceeds to field coercion rather than being skipped. -/
theorem C9_empty_first_field_admitted :
    ∀ r, 5 ≤ r.length → r.get? 0 = some "" → (∃ f ∈ r, f ≠ "") →
      rowAdmitted r = true ∧ processRow r ≠ RowResult.skip := by
  intro r hl h0 hane
  have hany : r.any (fun f => !(f == "")) = true := by
    obtain ⟨f, hf, hne⟩ := hane
    refine List.any_eq_true.mpr ⟨f, hf, ?_⟩
    simp [hne]
  have hfi : validFirstItem r = true := by
    rw [validFirstItem, h0, Option.getD_some]
    rfl
  have hadm : rowAdmitted r = true := by
    refine (rowAdmitted_iff r).2 ⟨?_, hfi, hany⟩
    simp only [validRecordLen, decide_eq_true_eq]
    exact hl
  refine ⟨hadm, ?_⟩
  rw [processRow_of_admitted hadm]
  cases coerceRow r <;> simp

/-- Witness for C9: a concrete five-field row with empty first field and
a non-empty type field is admitted and not skipped. -/
theorem C9_empty_first_field_admitted_witness :
    rowAdmitted ["", "DEBIT", "20240603", "1.0", "d"] = true ∧
      processRow ["", "DEBIT", "20240603", "1.0", "d"] ≠ RowResult.skip :=
  C9_empty_first_field_admitted ["", "DEBIT", "20240603", "1.0", "d"]
    (by decide) (by decide) ⟨"DEBIT", by decide, by decide⟩

/-- C10: for every admitted row, columns 2, 3 and 4 are present, and the
coercion equals the fallback-free coercion on those present fields: the
sentinel-date branch of `parse_date`, the amount `unwrap` panic and the
`N/A` description default are unreachable for admitted rows. -/
theorem C10_no_fallback_for_admitted :
    ∀ r, rowAdmitted r = true →
      ∃ f2 f3 f4, r.get? 2 = some f2 ∧ r.get? 3 = some f3 ∧
        r.get? 4 = some f4 ∧
        coerceRow r = coercePresent (r.get? 1) f2 f3 f4 := by
  intro r h
  obtain ⟨f2, h2⟩ := get?_isSome_of_admitted h 2 (by norm_num)
  obtain ⟨f3, h3⟩ := get?_isSome_of_admitted h 3 (by norm_num)
  obtain ⟨f4, h4⟩ := get?_isSome_of_admitted h 4 (by norm_num)
  refine ⟨f2, f3, f4, h2, h3, h4, ?_⟩
  unfold coerceRow coercePresent
  rw [h2, h3, h4]
  cases hft : TransactionType.from_option_str (r.get? 1) with
  | error m => rfl
  | ok tt =>
    simp only [parse_date]
    cases hc : chronoParseYmd f2 with
    | none => rfl
    | some dt => rfl

/-- Witness for C10: the fallback-free coercion agrees with the full
coercion on a concrete admitted row. -/
theorem C10_no_fallback_for_admitted_witness :
    ∃ f2 f3 f4,
      (["1", "DEBIT", "20240603", "1.0", "d"] : List String).get? 2 = some f2 ∧
      (["1", "DEBIT", "20240603", "1.0", "d"] : List String).get? 3 = some f3 ∧
      (["1", "DEBIT", "20240603", "1.0", "d"] : List String).get? 4 = some f4 ∧
      coerceRow ["1", "DEBIT", "20240603", "1.0", "d"] =
        coercePresent ((["1", "DEBIT", "20240603", "1.0", "d"] :
          List String).get? 1) f2 f3 f4 :=
  C10_no_fallback_for_admitted ["1", "DEBIT", "20240603", "1.0", "d"]
    (by decide)
